import Mathlib

/-!
Verification development for the ankisocial core data model
(`src/ankisocial/core/models/{user,post,log,score}.py`).

The Python source is shallowly embedded: ORM rows become Lean structures,
the database becomes explicit lists of rows, Python exceptions become an
explicit `PyErr` error type carried in `Except`, and the ambient world
(random source, clock) is passed explicitly.  Strings that only matter
byte-wise (emails) are embedded as `List Nat` of byte values so that
`str.lower`/`str.strip` can be modelled arithmetically; display strings
stay `String`.
-/

namespace Ankisocial

/-- Python exception taxonomy relevant to this core. -/
inductive PyErr
  | validationError
  | integrityError
  | protectedError
  | nameError (name : String)
  | typeError (msg : String)
  | keyError (key : String)
deriving DecidableEq, Repr

/-! ## Byte-level string helpers: `str.lower` and `str.strip`

`User.save` runs `self.email = self.email.lower().strip()`.  Emails are
modelled as lists of byte values; `pyLowerByte` is the ASCII case fold
performed by `str.lower`, and `pySpace` the ASCII whitespace class used
by `str.strip` (space, tab, newline, vertical tab, form feed, carriage
return). -/

/-- ASCII case fold of a single byte, as `str.lower` acts on ASCII. -/
def pyLowerByte (b : Nat) : Nat :=
  if 65 ≤ b ∧ b ≤ 90 then b + 32 else b

/-- ASCII whitespace, as recognised by `str.strip` with no argument. -/
def pySpace (b : Nat) : Bool :=
  decide (b = 32 ∨ b = 9 ∨ b = 10 ∨ b = 11 ∨ b = 12 ∨ b = 13)

/-- `str.lower` on a byte string. -/
def pyLower (s : List Nat) : List Nat := s.map pyLowerByte

/-- `str.strip` on a byte string: drop whitespace from both ends. -/
def pyStrip (s : List Nat) : List Nat :=
  List.rdropWhile pySpace (List.dropWhile pySpace s)

/-- The email normalisation performed by `User.save`:
`self.email.lower().strip()`. -/
def normalizeEmail (s : List Nat) : List Nat := pyStrip (pyLower s)

/-! ## JSON payload values

`Post.data` and `ActivityLog.data` hold loosely typed JSON.  Only
strings, integers and simple decimal floats occur in the modelled
payloads; a float is kept as integer part and fractional digits. -/

inductive Val
  | vstr (s : String)
  | vint (n : Int)
  | vfloat (ipart : Int) (fpart : Nat)
deriving DecidableEq, Repr

/-- Python `str()` of a payload value, used by `str.format`. -/
def strOfVal : Val → String
  | .vstr s => s
  | .vint n => toString n
  | .vfloat i f => toString i ++ "." ++ toString f

/-- Python `dict` lookup (`d.get(k)` / `d[k]` presence) over a payload. -/
def dictGet (d : List (String × Val)) (k : String) : Option Val :=
  (d.find? (fun kv => decide (kv.1 = k))).map (fun kv => kv.2)

/-- `k in d` for a payload dict. -/
def hasKey (d : List (String × Val)) (k : String) : Bool :=
  (dictGet d k).isSome

/-! ## Enumerations from `post.py` -/

/-- `PostType(models.TextChoices)`; constructor names follow the source,
including the `DAX_DURATION` spelling. -/
inductive PostType
  | TEXT
  | STREAK
  | DAY_SUMMARY
  | DAY_CARDS
  | DAX_DURATION
deriving DecidableEq, Repr

/-- The stored value of each choice (`"text"`, `"streak"`, `"day"`,
`"day_cards"`, `"day_duration"`). -/
def PostType.value : PostType → String
  | .TEXT => "text"
  | .STREAK => "streak"
  | .DAY_SUMMARY => "day"
  | .DAY_CARDS => "day_cards"
  | .DAX_DURATION => "day_duration"

/-- `ReactionType(models.TextChoices)`. -/
inductive ReactionType
  | WHEE
  | PARTY
  | COOL
deriving DecidableEq, Repr

/-! ## Rows -/

/-- A `core.User` row.  Field defaults mirror the model declaration:
`is_active=True`, both password-reset fields `null`, `locked=False`,
`app_token` `null`, `avatar` blank. -/
structure UserRec where
  id : Nat
  name : String
  email : List Nat
  password : String := ""
  isActive : Bool := true
  isStaff : Bool := false
  isSuperuser : Bool := false
  locale : String := "en"
  timezone : String := "UTC"
  avatar : Option String := none
  pwResetToken : Option String := none
  pwResetTime : Option Nat := none
  locked : Bool := false
  appToken : Option String := none
deriving DecidableEq, Repr

/-- A `core.Post` row. -/
structure PostRec where
  id : Nat
  user : Nat
  timestamp : Nat
  postType : PostType
  achievement : Bool := false
  contentDate : Nat
  contentTimeRange : Nat := 1
  data : List (String × Val)
  comment : Option String := none
deriving DecidableEq, Repr

/-- A `core.Reaction` row. -/
structure ReactionRec where
  id : Nat
  reactionType : ReactionType := .WHEE
  user : Nat
  post : Nat
deriving DecidableEq, Repr

/-- A `core.Score` row. -/
structure ScoreRec where
  id : Nat
  score : Nat
  date : Nat
  user : Nat
deriving DecidableEq, Repr

/-- A `core.ActivityLog` row: nullable actor (`on_delete=PROTECT`),
generic subject as (content-type tag, object id), server timestamp,
free-form action tag, optional serialised payload. -/
structure LogRec where
  id : Nat
  user : Option Nat
  contentType : String
  objectId : Nat
  timestamp : Nat
  actionType : String
  data : Option String := none
deriving DecidableEq, Repr

/-! ## Ambient world: randomness and clock -/

/-- The outside world: a stream of random characters with a read
position (modelling `django.utils.crypto.get_random_string`), and the
current time (modelling `django.utils.timezone.now`). -/
structure World where
  stream : Nat → Char
  pos : Nat
  clock : Nat

/-- `get_random_string(n)`: consume `n` characters from the stream. -/
def get_random_string (n : Nat) (w : World) : String × World :=
  (String.mk ((List.range n).map (fun i => w.stream (w.pos + i))),
   { w with pos := w.pos + n })

/-! ## The database -/

/-- The relational state: one list of rows per model, plus id
sequences. -/
structure DB where
  users : List UserRec := []
  posts : List PostRec := []
  reactions : List ReactionRec := []
  scores : List ScoreRec := []
  logs : List LogRec := []
  nextUserId : Nat := 1
  nextPostId : Nat := 1
  nextReactionId : Nat := 1
  nextLogId : Nat := 1
deriving DecidableEq, Repr

/-! ## Operations

Each operation returns the value raised-or-returned (`Except PyErr α`),
together with the database state visible afterwards and the advanced
world.  An `error` result means the Python exception propagated to the
caller; the returned `DB` is what a later observer sees (for the
`transaction.atomic` operation this is the rolled-back state). -/

/-- `User.save` (user.py): normalise the email, then write the row,
enforcing the `unique=True` constraint on `email` (insert when no row
with this pk exists, update otherwise). -/
def dbSave (db : DB) (u : UserRec) : Except PyErr DB :=
  let u1 := { u with email := normalizeEmail u.email }
  if db.users.any (fun v => decide (v.id ≠ u1.id ∧ v.email = u1.email)) then
    .error .integrityError
  else if db.users.any (fun v => decide (v.id = u1.id)) then
    .ok { db with users := db.users.map (fun v => if v.id = u1.id then u1 else v) }
  else
    .ok { db with users := db.users ++ [u1] }

/-- `User.log_action(action, data=None, user=None)`: create one
`ActivityLog` row with actor `user or self`, subject `self`, a
server-assigned timestamp and the (already serialised) payload. -/
def log_action (self : UserRec) (action : String) (data : Option String)
    (user : Option Nat) (db : DB) (w : World) : DB × World :=
  let entry : LogRec := {
    id := db.nextLogId
    user := some (user.getD self.id)
    contentType := "core.user"
    objectId := self.id
    timestamp := w.clock
    actionType := action
    data := data }
  ({ db with logs := db.logs ++ [entry], nextLogId := db.nextLogId + 1 }, w)

/-- `User.regenerate_token` (user.py:179): log `"user.token.reset"`,
then overwrite `app_token` with `get_random_string(32)`, save, and
return the new token.  Not wrapped in a transaction in the source. -/
def regenerate_token (self : UserRec) (db : DB) (w : World) :
    Except PyErr String × DB × World :=
  let r1 := log_action self "user.token.reset" none none db w
  let r2 := get_random_string 32 r1.2
  let u1 := { self with appToken := some r2.1 }
  match dbSave r1.1 u1 with
  | .error e => (.error e, r1.1, r2.2)
  | .ok db2 => (.ok r2.1, db2, r2.2)

/-- The names bound in the module namespace of `user.py`: its imports
(lines 1–26) and top-level definitions.  `build_absolute_uri`, used at
line 194, is not among them and is not a Python builtin, so evaluating
it raises `NameError`. -/
def userModuleNames : List String :=
  ["os", "json", "random", "suppress", "md5", "urljoin", "pytz",
   "settings", "AbstractBaseUser", "BaseUserManager", "PermissionsMixin",
   "ContentType", "models", "transaction", "Q", "get_random_string",
   "cached_property", "now", "override", "scopes_disabled", "Token",
   "path_with_hash", "avatar_path", "FileCleanupMixin", "UserManager",
   "User"]

/-- Evaluating a global name in `user.py`'s namespace. -/
def lookupGlobal (n : String) : Except PyErr Unit :=
  if n ∈ userModuleNames then .ok () else .error (.nameError n)

/-- `User.reset_password` (user.py:188), decorated `@transaction.atomic`:
sets `pw_reset_token = get_random_string(32)` and `pw_reset_time =
now()`, saves, then evaluates `build_absolute_uri(...)` — a name that is
not defined in the module, so a `NameError` is raised and the atomic
block rolls every database write back.  (Were that name defined, the
subsequent `self.log_action(action=..., person=user)` would raise
`TypeError`: `log_action` has no parameter `person`.)  The visible
database after any raise is therefore the original one. -/
def reset_password (self : UserRec) (db : DB) (w : World) :
    Except PyErr Unit × DB × World :=
  let (tok, w1) := get_random_string 32 w
  let u1 := { self with pwResetToken := some tok, pwResetTime := some w1.clock }
  match dbSave db u1 with
  | .error e => (.error e, db, w1)
  | .ok _db1 =>
    match lookupGlobal "build_absolute_uri" with
    | .error e => (.error e, db, w1)
    | .ok _ =>
      (.error (.typeError "log_action() got an unexpected keyword argument person"),
       db, w1)

/-- `UserManager.create_user(password=None, **kwargs)` with the profile
fields of §4.1: instantiate with model defaults, `set_password`, save.
Password hashing is an outside collaborator (§6); it is represented as
an abstract tagging of the raw password. -/
def create_user (name : String) (email : List Nat) (password : String)
    (db : DB) (w : World) : Except PyErr UserRec × DB × World :=
  let u : UserRec := { id := db.nextUserId, name := name, email := email,
                       password := "hashed$" ++ password }
  let db0 := { db with nextUserId := db.nextUserId + 1 }
  match dbSave db0 u with
  | .error e => (.error e, db0, w)
  | .ok db1 => (.ok { u with email := normalizeEmail u.email }, db1, w)

/-- `UserManager.create_superuser`: `create_user`, then set the staff
and superuser flags and save again. -/
def create_superuser (name : String) (email : List Nat) (password : String)
    (db : DB) (w : World) : Except PyErr UserRec × DB × World :=
  match create_user name email password db w with
  | (.error e, db1, w1) => (.error e, db1, w1)
  | (.ok u, db1, w1) =>
    let u1 := { u with isSuperuser := true, isStaff := true }
    match dbSave db1 u1 with
    | .error e => (.error e, db1, w1)
    | .ok db2 => (.ok u1, db2, w1)

/-! ### `ActivityLog.display` (log.py) -/

/-- The curated `ACTIONS` mapping of log.py, in source order. -/
def ACTIONS : List (String × String) :=
  [("user.password.reset", "Password reset email was sent."),
   ("user.token.reset", "API token was reset")]

/-- `dict.get` over the `ACTIONS` mapping. -/
def actionsGet (k : String) : Option String :=
  (ACTIONS.find? (fun kv => decide (kv.1 = k))).map (fun kv => kv.2)

/-- Python truthiness of `ACTIONS.get(...)`: `None` and `""` are falsy. -/
def truthyStr : Option String → Bool
  | none => false
  | some s => decide (s ≠ "")

/-- `ActivityLog.display`: return the curated string when
`ACTIONS.get(action_type)` is truthy, otherwise emit one warning to the
diagnostics sink and return the raw tag.  A total function: it raises
nothing.  The second component is the list of warnings emitted. -/
def display (e : LogRec) : String × List String :=
  let action := actionsGet e.actionType
  if truthyStr action then (action.getD "", [])
  else (e.actionType,
        ["Unknown log action \"" ++ e.actionType ++ "\"."])

/-! ### `Post.post_main_text` (post.py:52) -/

/-- `str(user)` / `User.__str__`: `self.name or _("Unnamed user")`. -/
def userStr (u : UserRec) : String :=
  if u.name = "" then "Unnamed user" else u.name

/-- The streak sentence, i.e. the template
`"{user} reached a streak of {days} days!"` after `str.format`. -/
def streakSentence (user : String) (days : String) : String :=
  user ++ " reached a streak of " ++ days ++ " days!"

/-- `Post.post_main_text`: for `TEXT`, `self.data.get("text", "")`; for
`STREAK`, the formatted sentence over `str(self.user)` and
`self.data["days"]` (a `KeyError` when absent); any other post type
falls off the end of the function and yields `None`. -/
def post_main_text (author : UserRec) (p : PostRec) :
    Except PyErr (Option Val) :=
  if p.postType = PostType.TEXT then
    .ok (some ((dictGet p.data "text").getD (.vstr "")))
  else if p.postType = PostType.STREAK then
    match dictGet p.data "days" with
    | none => .error (.keyError "days")
    | some d => .ok (some (.vstr (streakSentence (userStr author) (strOfVal d))))
  else
    .ok none

/-! ### Deletion: `FileCleanupMixin` and the collector (user.py:40, FK
`on_delete` declarations in post.py/log.py/score.py) -/

/-- `with suppress(Exception): value.delete(save=False)` — whatever the
storage backend raised is caught and discarded. -/
def suppressExc (r : Except PyErr Unit) : Except PyErr Unit :=
  match r with
  | .error _ => .ok ()
  | .ok _ => .ok ()

/-- `FileCleanupMixin._delete_files`: for every file field whose value
is truthy, issue a best-effort delete against the storage backend under
`suppress(Exception)`.  Returns the references for which a delete was
issued; an `error` result would mean an exception escaped the loop. -/
def delete_files (storage : String → Except PyErr Unit) :
    List (Option String) → Except PyErr (List String)
  | [] => .ok []
  | r :: rest =>
    match r with
    | none => delete_files storage rest
    | some f =>
      if f = "" then delete_files storage rest
      else
        match suppressExc (storage f) with
        | .error e => .error e
        | .ok _ => (delete_files storage rest).map (fun done => f :: done)

/-- The file-backed fields of a `User` row: just `avatar`. -/
def fileRefs (u : UserRec) : List (Option String) := [u.avatar]

/-- The row-deletion semantics declared by the models' foreign keys:
`ActivityLog.user` is `on_delete=PROTECT`, so a user who is the actor of
any log entry cannot be deleted and nothing changes; otherwise the user
row is removed and `Post.user`, `Reaction.user`, `Reaction.post` and
`Score.user` cascade (reactions die with their post as well).  Log rows
about the user (generic subject) are untouched. -/
def deleteUserRow (db : DB) (uid : Nat) : Except PyErr DB :=
  if db.logs.any (fun e => decide (e.user = some uid)) then
    .error .protectedError
  else
    let deadPosts := (db.posts.filter (fun p => decide (p.user = uid))).map (fun p => p.id)
    .ok { db with
      users := db.users.filter (fun v => decide (v.id ≠ uid))
      posts := db.posts.filter (fun p => decide (p.user ≠ uid))
      reactions := db.reactions.filter
        (fun r => decide (r.user ≠ uid ∧ r.post ∉ deadPosts))
      scores := db.scores.filter (fun s => decide (s.user ≠ uid)) }

/-- `User.delete` (via `FileCleanupMixin.delete`): best-effort file
cleanup first, then the protected/cascading row deletion.  Returns the
file references a delete was issued for, the raised-or-returned result,
and the visible database. -/
def userDelete (storage : String → Except PyErr Unit) (u : UserRec)
    (db : DB) : List String × Except PyErr Unit × DB :=
  match delete_files storage (fileRefs u) with
  | .error e => ([], .error e, db)
  | .ok attempts =>
    match deleteUserRow db u.id with
    | .error e => (attempts, .error e, db)
    | .ok db1 => (attempts, .ok (), db1)

/-! ### `publish_post` — modelled from the spec

`Modelled from the spec:` the publishing operation itself is not part of
the shown source (only the `Post` model is); §4.3 specifies that
`publish_post` "validates that payload contains the keys required by
`kind` per the table in §3; fails with ValidationError otherwise", with
required keys text → `text`; streak → `days`; day-summary → `cards` and
`duration`; day-cards → `cards` and/or `cards_unique`; day-duration →
`duration`.  This matches the payload-shape comment at post.py:32. -/
def requiredKeysOk (k : PostType) (payload : List (String × Val)) : Bool :=
  match k with
  | .TEXT => hasKey payload "text"
  | .STREAK => hasKey payload "days"
  | .DAY_SUMMARY => hasKey payload "cards" && hasKey payload "duration"
  | .DAY_CARDS => hasKey payload "cards" || hasKey payload "cards_unique"
  | .DAX_DURATION => hasKey payload "duration"

/-- `Modelled from the spec:` `publish_post(author, kind, content_date,
time_range_days, payload, comment_or_none)` — validate the payload keys
for the kind, then insert the post row; `achievement` is not computed
here. -/
def publish_post (author : Nat) (k : PostType) (contentDate : Nat)
    (timeRange : Nat) (payload : List (String × Val))
    (comment : Option String) (db : DB) (w : World) :
    Except PyErr PostRec × DB × World :=
  if requiredKeysOk k payload then
    let p : PostRec := {
      id := db.nextPostId, user := author, timestamp := w.clock,
      postType := k, contentDate := contentDate,
      contentTimeRange := timeRange, data := payload, comment := comment }
    (.ok p, { db with posts := db.posts ++ [p], nextPostId := db.nextPostId + 1 }, w)
  else
    (.error .validationError, db, w)

/-- `react(user, post, kind)` (§4.3): unconditional insert. -/
def react (uid pid : Nat) (k : ReactionType) (db : DB) :
    ReactionRec × DB :=
  let r : ReactionRec := { id := db.nextReactionId, reactionType := k,
                           user := uid, post := pid }
  (r, { db with reactions := db.reactions ++ [r],
                nextReactionId := db.nextReactionId + 1 })

/-! ## Operation sequences

The operations this core exposes (§4), as a step relation for invariant
claims.  `step` runs one operation and keeps the database state that is
visible afterwards whether or not the operation raised. -/

inductive Op
  | createUser (name : String) (email : List Nat) (password : String)
  | createSuperuser (name : String) (email : List Nat) (password : String)
  | saveProfile (uid : Nat) (name : String) (email : List Nat)
  | regenerateToken (uid : Nat)
  | resetPassword (uid : Nat)
  | publishPost (author : Nat) (k : PostType) (contentDate : Nat)
      (timeRange : Nat) (payload : List (String × Val)) (comment : Option String)
  | reactOp (uid pid : Nat) (k : ReactionType)
  | logActionOp (uid : Nat) (action : String) (data : Option String)
  | deleteUser (uid : Nat)

/-- Fetch the in-memory instance an instance method is called on. -/
def findUser (db : DB) (uid : Nat) : Option UserRec :=
  db.users.find? (fun u => decide (u.id = uid))

/-- Run one operation; an operation on a missing user is a no-op, and a
raised exception leaves the state the operation made visible. -/
def step (s : DB × World) (op : Op) : DB × World :=
  match op with
  | .createUser n e p => ((create_user n e p s.1 s.2).2.1, (create_user n e p s.1 s.2).2.2)
  | .createSuperuser n e p =>
      ((create_superuser n e p s.1 s.2).2.1, (create_superuser n e p s.1 s.2).2.2)
  | .saveProfile uid n e =>
      match findUser s.1 uid with
      | none => s
      | some u =>
        match dbSave s.1 { u with name := n, email := e } with
        | .error _ => s
        | .ok db1 => (db1, s.2)
  | .regenerateToken uid =>
      match findUser s.1 uid with
      | none => s
      | some u => ((regenerate_token u s.1 s.2).2.1, (regenerate_token u s.1 s.2).2.2)
  | .resetPassword uid =>
      match findUser s.1 uid with
      | none => s
      | some u => ((reset_password u s.1 s.2).2.1, (reset_password u s.1 s.2).2.2)
  | .publishPost a k cd tr pl c =>
      ((publish_post a k cd tr pl c s.1 s.2).2.1, (publish_post a k cd tr pl c s.1 s.2).2.2)
  | .reactOp uid pid k => ((react uid pid k s.1).2, s.2)
  | .logActionOp uid action data =>
      match findUser s.1 uid with
      | none => s
      | some u => log_action u action data none s.1 s.2
  | .deleteUser uid =>
      match findUser s.1 uid with
      | none => s
      | some u => ((userDelete (fun _ => .ok ()) u s.1).2.2, s.2)

/-- Run a sequence of operations. -/
def runOps (s : DB × World) (ops : List Op) : DB × World :=
  ops.foldl step s

/-- The §3 invariant on a user row: password-reset token and timestamp
are both null or both set. -/
def pwPairInv (u : UserRec) : Prop :=
  u.pwResetToken.isSome = u.pwResetTime.isSome

/-- The invariant over the whole database. -/
def pwInv (db : DB) : Prop :=
  ∀ u ∈ db.users, pwPairInv u

instance : DecidablePred pwPairInv := fun u => by
  unfold pwPairInv; infer_instance

instance (db : DB) : Decidable (pwInv db) := by
  unfold pwInv; infer_instance

/-! ## Helper lemmas on the byte-string operations -/

lemma pyLowerByte_idem (b : Nat) : pyLowerByte (pyLowerByte b) = pyLowerByte b := by
  unfold pyLowerByte
  by_cases h : 65 ≤ b ∧ b ≤ 90
  · rw [if_pos h, if_neg (by omega)]
  · rw [if_neg h, if_neg h]

lemma pySpace_pyLowerByte (b : Nat) : pySpace (pyLowerByte b) = pySpace b := by
  unfold pyLowerByte
  by_cases h : 65 ≤ b ∧ b ≤ 90
  · rw [if_pos h]
    simp only [pySpace, decide_eq_decide]
    omega
  · rw [if_neg h]

lemma pyLower_eq_self {t : List Nat} (h : ∀ b ∈ t, pyLowerByte b = b) :
    pyLower t = t := by
  unfold pyLower
  have h1 : List.map pyLowerByte t = List.map (fun b => b) t :=
    List.map_congr_left h
  rw [h1, List.map_id']

lemma pyLower_idem (s : List Nat) : pyLower (pyLower s) = pyLower s := by
  apply pyLower_eq_self
  intro b hb
  unfold pyLower at hb
  rcases List.mem_map.mp hb with ⟨a, _, rfl⟩
  exact pyLowerByte_idem a

lemma dropWhile_all_append (p : Nat → Bool) (w l : List Nat)
    (h : ∀ b ∈ w, p b = true) :
    List.dropWhile p (w ++ l) = List.dropWhile p l := by
  induction w with
  | nil => rfl
  | cons a t ih =>
    rw [List.cons_append, List.dropWhile_cons_of_pos (h a (by simp))]
    exact ih (fun b hb => h b (by simp [hb]))

lemma dropWhile_all_nil (p : Nat → Bool) (w : List Nat)
    (h : ∀ b ∈ w, p b = true) : List.dropWhile p w = [] := by
  have h1 := dropWhile_all_append p w [] h
  simpa using h1

lemma dropWhile_append_cases (p : Nat → Bool) (x w : List Nat) :
    List.dropWhile p (x ++ w) = List.dropWhile p x ++ w ∨
    (List.dropWhile p x = [] ∧
      List.dropWhile p (x ++ w) = List.dropWhile p w) := by
  induction x with
  | nil => right; exact ⟨rfl, rfl⟩
  | cons a t ih =>
    by_cases h : p a = true
    · rw [List.cons_append, List.dropWhile_cons_of_pos h,
          List.dropWhile_cons_of_pos h]
      exact ih
    · left
      rw [List.cons_append, List.dropWhile_cons_of_neg (by simpa using h),
          List.dropWhile_cons_of_neg (by simpa using h), List.cons_append]

lemma rdropWhile_all_append (p : Nat → Bool) (x w : List Nat)
    (h : ∀ b ∈ w, p b = true) :
    List.rdropWhile p (x ++ w) = List.rdropWhile p x := by
  unfold List.rdropWhile
  rw [List.reverse_append, dropWhile_all_append p w.reverse x.reverse
        (fun b hb => h b (List.mem_reverse.mp hb))]

lemma pyStrip_pad (w1 x w2 : List Nat)
    (h1 : ∀ b ∈ w1, pySpace b = true) (h2 : ∀ b ∈ w2, pySpace b = true) :
    pyStrip (w1 ++ x ++ w2) = pyStrip x := by
  unfold pyStrip
  rw [List.append_assoc, dropWhile_all_append pySpace w1 (x ++ w2) h1]
  rcases dropWhile_append_cases pySpace x w2 with hc | ⟨hx, hc⟩
  · rw [hc, rdropWhile_all_append pySpace _ w2 h2]
  · rw [hc, dropWhile_all_nil pySpace w2 h2, hx]

lemma dropWhile_eq_self_of_isPre (p : Nat → Bool) {l t : List Nat}
    (hl : List.dropWhile p l = l) (ht : t <+: l) :
    List.dropWhile p t = t := by
  cases t with
  | nil => rfl
  | cons a t1 =>
    obtain ⟨r, hr⟩ := ht
    have ha : ¬ p a = true := by
      intro hpa
      rw [← hr, List.cons_append, List.dropWhile_cons_of_pos hpa] at hl
      have hlen := congrArg List.length hl
      have hle : (List.dropWhile p (t1 ++ r)).length ≤ (t1 ++ r).length :=
        List.Sublist.length_le (List.dropWhile_sublist p)
      simp at hlen hle
      omega
    rw [List.dropWhile_cons_of_neg ha]

lemma pyStrip_idem (l : List Nat) : pyStrip (pyStrip l) = pyStrip l := by
  unfold pyStrip
  have h1 : List.dropWhile pySpace
      (List.rdropWhile pySpace (List.dropWhile pySpace l)) =
      List.rdropWhile pySpace (List.dropWhile pySpace l) := by
    apply dropWhile_eq_self_of_isPre pySpace
        (@List.dropWhile_idempotent Nat pySpace l)
    exact List.rdropWhile_prefix pySpace (List.dropWhile pySpace l)
  rw [h1]
  exact List.rdropWhile_idempotent pySpace (List.dropWhile pySpace l)

lemma pyStrip_subset (l : List Nat) : ∀ b ∈ pyStrip l, b ∈ l := by
  intro b hb
  unfold pyStrip at hb
  have h1 : List.Sublist (List.rdropWhile pySpace (List.dropWhile pySpace l))
      (List.dropWhile pySpace l) :=
    List.IsPrefix.sublist ( List.rdropWhile_prefix pySpace (List.dropWhile pySpace l))
  have h2 : List.Sublist (List.dropWhile pySpace l) l :=
    List.dropWhile_sublist pySpace
  exact (h2.subset (h1.subset hb))

lemma pyLower_pyStrip_fixed (e : List Nat) :
    pyLower (pyStrip (pyLower e)) = pyStrip (pyLower e) := by
  apply pyLower_eq_self
  intro b hb
  have hb1 : b ∈ pyLower e := pyStrip_subset (pyLower e) b hb
  unfold pyLower at hb1
  rcases List.mem_map.mp hb1 with ⟨a, _, rfl⟩
  exact pyLowerByte_idem a

lemma normalizeEmail_idem (e : List Nat) :
    normalizeEmail (normalizeEmail e) = normalizeEmail e := by
  unfold normalizeEmail
  rw [pyLower_pyStrip_fixed]
  exact pyStrip_idem _

/-- "Differs only in case or in surrounding whitespace": both strings
are a common core, up to letter case, wrapped in (possibly empty)
whitespace padding. -/
def emailVariant (e1 e2 : List Nat) : Prop :=
  ∃ w1 c1 w2 w3 c2 w4,
    (∀ b ∈ w1, pySpace b = true) ∧ (∀ b ∈ w2, pySpace b = true) ∧
    (∀ b ∈ w3, pySpace b = true) ∧ (∀ b ∈ w4, pySpace b = true) ∧
    e1 = w1 ++ c1 ++ w2 ∧ e2 = w3 ++ c2 ++ w4 ∧ pyLower c1 = pyLower c2

lemma pyLower_all_space {w : List Nat} (h : ∀ b ∈ w, pySpace b = true) :
    ∀ b ∈ pyLower w, pySpace b = true := by
  intro b hb
  unfold pyLower at hb
  rcases List.mem_map.mp hb with ⟨a, ha, rfl⟩
  rw [pySpace_pyLowerByte]
  exact h a ha

lemma pyLower_append (a b : List Nat) :
    pyLower (a ++ b) = pyLower a ++ pyLower b := by
  unfold pyLower
  exact List.map_append pyLowerByte a b

lemma emailVariant_norm_eq {e1 e2 : List Nat} (h : emailVariant e1 e2) :
    normalizeEmail e1 = normalizeEmail e2 := by
  obtain ⟨w1, c1, w2, w3, c2, w4, hw1, hw2, hw3, hw4, rfl, rfl, hc⟩ := h
  unfold normalizeEmail
  rw [pyLower_append, pyLower_append, pyLower_append, pyLower_append]
  rw [pyStrip_pad _ _ _ (pyLower_all_space hw1) (pyLower_all_space hw2)]
  rw [pyStrip_pad _ _ _ (pyLower_all_space hw3) (pyLower_all_space hw4)]
  rw [hc]

/-! ## Shared helper lemmas about the operations -/

lemma suppressExc_ok (r : Except PyErr Unit) : suppressExc r = .ok () := by
  cases r <;> rfl

/-- The truthy stored file references, in field order: what the cleanup
loop issues deletes for. -/
def truthyRefs (refs : List (Option String)) : List String :=
  (refs.filterMap id).filter (fun f => decide (f ≠ ""))

lemma delete_files_ok (storage : String → Except PyErr Unit)
    (refs : List (Option String)) :
    delete_files storage refs = .ok (truthyRefs refs) := by
  induction refs with
  | nil => rfl
  | cons r t ih =>
    cases r with
    | none => simpa [delete_files, truthyRefs] using ih
    | some f =>
      by_cases hf : f = ""
      · subst hf
        simpa [delete_files, truthyRefs] using ih
      · rw [delete_files]
        simp only [hf, if_false, suppressExc_ok (storage f)]
        rw [ih]
        simp [truthyRefs, hf, Except.map]

/-! ## Claims -/

/-- C7: for every ActivityLog entry, `display` returns the curated
display string when the entry's `action_type` is in the `ACTIONS`
mapping, and for every unmapped `action_type` it emits one warning to
the diagnostics sink and returns the raw tag unchanged.  `display` is a
total function into `String × List String`, so it never raises, for any
`action_type`. -/
theorem activitylog_display_total (e : LogRec) :
    (∀ v, actionsGet e.actionType = some v → display e = (v, [])) ∧
    (actionsGet e.actionType = none →
      display e = (e.actionType,
        ["Unknown log action \"" ++ e.actionType ++ "\"."])) := by
  constructor
  · intro v hv
    have hne : v ≠ "" := by
      rcases hfind : ACTIONS.find? (fun kv => decide (kv.1 = e.actionType))
          with _ | kv
      · rw [actionsGet, hfind] at hv
        simp at hv
      · have hmem := List.mem_of_find?_eq_some hfind
        rw [actionsGet, hfind] at hv
        simp at hv
        simp [ACTIONS] at hmem
        rcases hmem with h | h <;> rw [← hv, h] <;> decide
    unfold display
    rw [hv]
    simp [truthyStr, hne]
  · intro h
    unfold display
    rw [h]
    simp [truthyStr]

/-- Witness for C7: a mapped tag renders to its curated string; an
unmapped tag comes back verbatim with one warning. -/
theorem activitylog_display_total_witness :
    display { id := 1, user := some 1, contentType := "core.user", objectId := 1,
              timestamp := 0, actionType := "user.token.reset" } =
      ("API token was reset", []) ∧
    display { id := 2, user := none, contentType := "core.user", objectId := 1,
              timestamp := 0, actionType := "user.mystery" } =
      ("user.mystery", ["Unknown log action \"user.mystery\"."]) := by
  constructor
  · exact (activitylog_display_total _).1 "API token was reset" rfl
  · exact (activitylog_display_total _).2 rfl

/-- C8: for a `text` post `post_main_text` returns `payload["text"]`
verbatim, and the empty string when the key is absent; for a `streak`
post it returns the localized sentence interpolating the author's
display name and `payload["days"]`, and raises `KeyError` when `"days"`
is absent. -/
theorem post_main_text_text_streak :
    (∀ (u : UserRec) (p : PostRec) (v : Val),
        p.postType = PostType.TEXT → dictGet p.data "text" = some v →
        post_main_text u p = .ok (some v)) ∧
    (∀ (u : UserRec) (p : PostRec),
        p.postType = PostType.TEXT → dictGet p.data "text" = none →
        post_main_text u p = .ok (some (.vstr ""))) ∧
    (∀ (u : UserRec) (p : PostRec) (d : Val),
        p.postType = PostType.STREAK → dictGet p.data "days" = some d →
        post_main_text u p =
          .ok (some (.vstr (streakSentence (userStr u) (strOfVal d))))) ∧
    (∀ (u : UserRec) (p : PostRec),
        p.postType = PostType.STREAK → dictGet p.data "days" = none →
        post_main_text u p = .error (.keyError "days")) := by
  refine ⟨?_, ?_, ?_, ?_⟩
  · intro u p v ht hget
    simp [post_main_text, ht, hget]
  · intro u p ht hget
    simp [post_main_text, ht, hget]
  · intro u p d ht hget
    simp [post_main_text, ht, hget]
  · intro u p ht hget
    simp [post_main_text, ht, hget]

/-- Witness for C8: all four behaviours at concrete posts. -/
theorem post_main_text_text_streak_witness :
    post_main_text { id := 1, name := "alice", email := [] }
      { id := 1, user := 1, timestamp := 0, postType := .TEXT,
        contentDate := 0, data := [("text", .vstr "hi")] } =
      .ok (some (.vstr "hi")) ∧
    post_main_text { id := 1, name := "alice", email := [] }
      { id := 2, user := 1, timestamp := 0, postType := .TEXT,
        contentDate := 0, data := [] } =
      .ok (some (.vstr "")) ∧
    post_main_text { id := 1, name := "alice", email := [] }
      { id := 3, user := 1, timestamp := 0, postType := .STREAK,
        contentDate := 0, data := [("days", .vint 12)] } =
      .ok (some (.vstr "alice reached a streak of 12 days!")) ∧
    post_main_text { id := 1, name := "alice", email := [] }
      { id := 4, user := 1, timestamp := 0, postType := .STREAK,
        contentDate := 0, data := [] } =
      .error (.keyError "days") := by
  refine ⟨?_, ?_, ?_, ?_⟩
  · exact post_main_text_text_streak.1 _ _ (.vstr "hi") rfl rfl
  · exact post_main_text_text_streak.2.1 _ _ rfl rfl
  · exact post_main_text_text_streak.2.2.1 _ _ (.vint 12) rfl rfl
  · exact post_main_text_text_streak.2.2.2 _ _ rfl rfl

/-- C10: for every post whose kind is neither `text` nor `streak`
(day-summary, day-cards, day-duration), `post_main_text` falls off the
end of the function and yields no text at all — the absent value `none`
rather than a string. -/
theorem post_main_text_other_kinds (u : UserRec) (p : PostRec)
    (h : p.postType = PostType.DAY_SUMMARY ∨ p.postType = PostType.DAY_CARDS ∨
         p.postType = PostType.DAX_DURATION) :
    post_main_text u p = .ok none := by
  rcases h with h | h | h <;> simp [post_main_text, h]

/-- Witness for C10: a day-summary post yields `none`. -/
theorem post_main_text_other_kinds_witness :
    post_main_text { id := 1, name := "alice", email := [] }
      { id := 5, user := 1, timestamp := 0, postType := .DAY_SUMMARY,
        contentDate := 0, data := [("cards", .vint 10), ("duration", .vfloat 25 5)] } =
      .ok none :=
  post_main_text_other_kinds _ _ (Or.inl rfl)

/-- C9: the deletion operation first issues a best-effort delete for
each stored (truthy) file reference, every exception raised by an
individual file deletion is caught and discarded by
`suppress(Exception)`, and deletion of the database row proceeds
independently of the storage backend: the whole outcome of
`User.delete` is the same for any two storage backends. -/
theorem file_cleanup_best_effort :
    (∀ (storage : String → Except PyErr Unit) (refs : List (Option String)),
        delete_files storage refs = .ok (truthyRefs refs)) ∧
    (∀ (storage1 storage2 : String → Except PyErr Unit) (u : UserRec) (db : DB),
        userDelete storage1 u db = userDelete storage2 u db) ∧
    (∀ (storage : String → Except PyErr Unit) (u : UserRec) (db : DB),
        (userDelete storage u db).1 = truthyRefs (fileRefs u)) := by
  refine ⟨delete_files_ok, ?_, ?_⟩
  · intro s1 s2 u db
    unfold userDelete
    rw [delete_files_ok s1, delete_files_ok s2]
  · intro s u db
    unfold userDelete
    rw [delete_files_ok s]
    cases deleteUserRow db u.id <;> rfl

/-- The §3 payload-key table, stated as a proposition per kind: text
needs `text`; streak needs `days`; day-summary needs `cards` and
`duration`; day-cards needs `cards` and/or `cards_unique`; day-duration
needs `duration`. -/
def requiredKeysProp (k : PostType) (payload : List (String × Val)) : Prop :=
  match k with
  | .TEXT => (dictGet payload "text").isSome = true
  | .STREAK => (dictGet payload "days").isSome = true
  | .DAY_SUMMARY =>
      (dictGet payload "cards").isSome = true ∧
      (dictGet payload "duration").isSome = true
  | .DAY_CARDS =>
      (dictGet payload "cards").isSome = true ∨
      (dictGet payload "cards_unique").isSome = true
  | .DAX_DURATION => (dictGet payload "duration").isSome = true

/-- C1: `publish_post` succeeds exactly when the payload contains every
key the §3 table requires for the kind, and returns `ValidationError`
otherwise; in particular a day-summary payload `{"cards": 10}` fails
while `{"cards": 10, "duration": 25.5}` succeeds.  (`publish_post` is
modelled from the spec: the shown source contains only the `Post` model
and its payload-shape comment.) -/
theorem publish_post_validates :
    (∀ (author : Nat) (k : PostType) (cd tr : Nat)
        (payload : List (String × Val)) (c : Option String) (db : DB) (w : World),
        ((∃ p, (publish_post author k cd tr payload c db w).1 = .ok p) ↔
          requiredKeysProp k payload) ∧
        (¬ requiredKeysProp k payload →
          (publish_post author k cd tr payload c db w).1 =
            .error .validationError)) ∧
    (publish_post 1 .DAY_SUMMARY 0 1 [("cards", .vint 10)] none {}
        { stream := fun _ => 'a', pos := 0, clock := 0 }).1 =
      .error .validationError ∧
    (∃ p, (publish_post 1 .DAY_SUMMARY 0 1
        [("cards", .vint 10), ("duration", .vfloat 25 5)] none {}
        { stream := fun _ => 'a', pos := 0, clock := 0 }).1 = .ok p) := by
  refine ⟨?_, by rfl, ⟨_, rfl⟩⟩
  intro author k cd tr payload c db w
  have hbool : requiredKeysOk k payload = true ↔ requiredKeysProp k payload := by
    cases k <;> simp [requiredKeysOk, requiredKeysProp, hasKey]
  constructor
  · constructor
    · rintro ⟨p, hp⟩
      by_cases h : requiredKeysOk k payload = true
      · exact hbool.mp h
      · rw [publish_post, if_neg h] at hp
        simp at hp
    · intro h
      rw [publish_post, if_pos (hbool.mpr h)]
      exact ⟨_, rfl⟩
  · intro h
    have hb : ¬ requiredKeysOk k payload = true := fun hc => h (hbool.mp hc)
    rw [publish_post, if_neg hb]

/-- Witness for C1: at a concrete valid day-summary call the success
branch of the equivalence fires. -/
theorem publish_post_validates_witness :
    requiredKeysProp .DAY_SUMMARY [("cards", .vint 10), ("duration", .vfloat 25 5)] ∧
    (∃ p, (publish_post 7 .DAY_SUMMARY 3 1
        [("cards", .vint 10), ("duration", .vfloat 25 5)] (some "hi") {}
        { stream := fun _ => 'b', pos := 0, clock := 5 }).1 = .ok p) := by
  constructor
  · exact ⟨rfl, rfl⟩
  · exact ((publish_post_validates.1 7 .DAY_SUMMARY 3 1
      [("cards", .vint 10), ("duration", .vfloat 25 5)] (some "hi") {}
      { stream := fun _ => 'b', pos := 0, clock := 5 }).1).mpr ⟨rfl, rfl⟩

/-- C2 (code bug witness): every call to `reset_password` raises.  The
`@transaction.atomic` rollback does leave the database unchanged, but
the operation never completes: after the token/timestamp save the body
evaluates `build_absolute_uri`, a name the module never defines or
imports, so a `NameError` is raised (and even past that point,
`log_action(action=..., person=user)` would be a `TypeError`).  Under
the side condition that the save itself does not hit the email unique
constraint, the raised error is exactly that `NameError`. -/
theorem reset_password_always_raises (u : UserRec) (db : DB) (w : World) :
    (∃ e, (reset_password u db w).1 = .error e) ∧
    (reset_password u db w).2.1 = db ∧
    ((∀ v ∈ db.users, v.id ≠ u.id → v.email ≠ normalizeEmail u.email) →
      (reset_password u db w).1 = .error (.nameError "build_absolute_uri")) := by
  unfold reset_password
  rcases hsave : dbSave db { u with
      pwResetToken := some (get_random_string 32 w).1,
      pwResetTime := some (get_random_string 32 w).2.clock } with e | db1
  · refine ⟨⟨e, by simp [hsave]⟩, by simp [hsave], ?_⟩
    intro hnodup
    exfalso
    unfold dbSave at hsave
    rw [if_neg ?_] at hsave
    · split at hsave <;> simp at hsave
    · simp only [List.any_eq_true, decide_eq_true_eq, not_exists]
      rintro v ⟨hv, hid, hem⟩
      exact hnodup v hv hid hem
  · have hlook : lookupGlobal "build_absolute_uri" =
        .error (.nameError "build_absolute_uri") := by rfl
    refine ⟨⟨.nameError "build_absolute_uri", by simp [hsave, hlook]⟩,
      by simp [hsave, hlook], fun _ => by simp [hsave, hlook]⟩

/-- Witness for C2: on a one-user database the reset raises the
`NameError` and the database is unchanged. -/
theorem reset_password_always_raises_witness :
    (reset_password { id := 1, name := "alice", email := [97, 64, 98] }
        { users := [{ id := 1, name := "alice", email := [97, 64, 98] }] }
        { stream := fun _ => 'c', pos := 0, clock := 9 }).1 =
      .error (.nameError "build_absolute_uri") ∧
    (reset_password { id := 1, name := "alice", email := [97, 64, 98] }
        { users := [{ id := 1, name := "alice", email := [97, 64, 98] }] }
        { stream := fun _ => 'c', pos := 0, clock := 9 }).2.1 =
      { users := [{ id := 1, name := "alice", email := [97, 64, 98] }] } := by
  constructor
  · exact (reset_password_always_raises _ _ _).2.2 (by decide)
  · exact (reset_password_always_raises _ _ _).2.1

/-- A token authenticates as user `uid` iff some row with that id
stores it as `app_token`. -/
def authenticatesAs (db : DB) (uid : Nat) (tok : String) : Prop :=
  ∃ v ∈ db.users, v.id = uid ∧ v.appToken = some tok

lemma lookupGlobal_build_absolute_uri :
    lookupGlobal "build_absolute_uri" = .error (.nameError "build_absolute_uri") :=
  rfl

lemma reset_password_db (u : UserRec) (db : DB) (w : World) :
    (reset_password u db w).2.1 = db := by
  unfold reset_password
  rcases hsave : dbSave db { u with
      pwResetToken := some (get_random_string 32 w).1,
      pwResetTime := some (get_random_string 32 w).2.clock } with e | db1
  · simp [hsave]
  · simp [hsave, lookupGlobal_build_absolute_uri]

/-- C6: deleting a user who is the actor of at least one ActivityLog
entry is refused (`ProtectedError`) and the database — the user, their
posts, reactions and all log entries — is unchanged; deleting a user
with no log entries as actor succeeds and cascade-deletes that user's
posts and reactions while log rows survive untouched. -/
theorem user_delete_protect_and_cascade
    (storage : String → Except PyErr Unit) (u : UserRec) (db : DB) :
    ((∃ e ∈ db.logs, e.user = some u.id) →
      (userDelete storage u db).2 = (.error .protectedError, db)) ∧
    ((∀ e ∈ db.logs, e.user ≠ some u.id) →
      ∃ db1, (userDelete storage u db).2 = (.ok (), db1) ∧
        (∀ v ∈ db1.users, v.id ≠ u.id) ∧
        (∀ p ∈ db1.posts, p.user ≠ u.id) ∧
        (∀ r ∈ db1.reactions, r.user ≠ u.id) ∧
        db1.logs = db.logs) := by
  constructor
  · rintro ⟨e, he, heu⟩
    have hprot : db.logs.any (fun x => decide (x.user = some u.id)) = true := by
      rw [List.any_eq_true]
      exact ⟨e, he, by simpa using heu⟩
    simp [userDelete, delete_files_ok storage, deleteUserRow, hprot]
  · intro hno
    have hprot : ¬ db.logs.any (fun x => decide (x.user = some u.id)) = true := by
      rw [List.any_eq_true]
      rintro ⟨e, he, hd⟩
      exact hno e he (by simpa using hd)
    refine ⟨{ db with
        users := db.users.filter (fun v => decide (v.id ≠ u.id)),
        posts := db.posts.filter (fun p => decide (p.user ≠ u.id)),
        reactions := db.reactions.filter (fun r => decide (r.user ≠ u.id ∧
          r.post ∉ (db.posts.filter (fun p => decide (p.user = u.id))).map
            (fun p => p.id))),
        scores := db.scores.filter (fun s => decide (s.user ≠ u.id)) },
      ?_, ?_, ?_, ?_, ?_⟩
    · simp [userDelete, delete_files_ok storage, deleteUserRow, hprot]
    · intro v hv
      have hv1 := (List.mem_filter.mp hv).2
      simpa using hv1
    · intro p hp
      have hp1 := (List.mem_filter.mp hp).2
      simpa using hp1
    · intro r hr
      have hr1 := (List.mem_filter.mp hr).2
      simp at hr1
      exact hr1.1
    · rfl

/-- Witness for C6: on a database whose single log entry has user 1 as
actor, deleting user 1 is refused with everything unchanged; on a
database with a post and a reaction by user 1 and no log entries,
deleting user 1 succeeds and removes both. -/
theorem user_delete_protect_and_cascade_witness :
    (userDelete (fun _ => .ok ()) { id := 1, name := "a", email := [97] }
        { users := [{ id := 1, name := "a", email := [97] }],
          logs := [{ id := 1, user := some 1, contentType := "core.user",
                     objectId := 1, timestamp := 0,
                     actionType := "user.token.reset" }] }).2 =
      (.error .protectedError,
        { users := [{ id := 1, name := "a", email := [97] }],
          logs := [{ id := 1, user := some 1, contentType := "core.user",
                     objectId := 1, timestamp := 0,
                     actionType := "user.token.reset" }] }) ∧
    ∃ db1, (userDelete (fun _ => .ok ()) { id := 1, name := "a", email := [97] }
        { users := [{ id := 1, name := "a", email := [97] }],
          posts := [{ id := 1, user := 1, timestamp := 0, postType := .TEXT,
                      contentDate := 0, data := [("text", .vstr "hi")] }],
          reactions := [{ id := 1, user := 1, post := 1 }] }).2 =
      (.ok (), db1) ∧
      (∀ v ∈ db1.users, v.id ≠ 1) ∧
      (∀ p ∈ db1.posts, p.user ≠ 1) ∧
      (∀ r ∈ db1.reactions, r.user ≠ 1) := by
  constructor
  · exact (user_delete_protect_and_cascade _ _ _).1
      ⟨{ id := 1, user := some 1, contentType := "core.user", objectId := 1,
         timestamp := 0, actionType := "user.token.reset" }, by decide⟩
  · obtain ⟨db1, h1, h2, h3, h4, _⟩ :=
      (user_delete_protect_and_cascade (fun _ => .ok ())
        { id := 1, name := "a", email := [97] }
        { users := [{ id := 1, name := "a", email := [97] }],
          posts := [{ id := 1, user := 1, timestamp := 0, postType := .TEXT,
                      contentDate := 0, data := [("text", .vstr "hi")] }],
          reactions := [{ id := 1, user := 1, post := 1 }] }).2 (by decide)
    exact ⟨db1, h1, h2, h3, h4⟩

/-- C5: `regenerate_token` generates a 32-character token, stores it as
the user's `app_token` (so any different previous token no longer
authenticates — no overlap window), appends exactly one ActivityLog
entry tagged `"user.token.reset"` whose actor is the user itself, and
returns the newly stored token. -/
theorem regenerate_token_rotates (u : UserRec) (db : DB) (w : World)
    (hu : u ∈ db.users)
    (hemail : ∀ v ∈ db.users, v.id ≠ u.id → v.email ≠ normalizeEmail u.email) :
    ∃ tok db2 w2,
      regenerate_token u db w = (.ok tok, db2, w2) ∧
      tok.length = 32 ∧
      (∃ entry : LogRec, db2.logs = db.logs ++ [entry] ∧
        entry.actionType = "user.token.reset" ∧ entry.user = some u.id ∧
        entry.objectId = u.id) ∧
      (∀ v ∈ db2.users, v.id = u.id → v.appToken = some tok) ∧
      (∀ t, authenticatesAs db2 u.id t ↔ t = tok) := by
  rcases hgr : get_random_string 32 w with ⟨tk, wr⟩
  have hlen32 : tk.length = 32 := by
    have h1 : (get_random_string 32 w).1 = tk := by rw [hgr]
    rw [← h1]
    simp [get_random_string, String.length]
  set entry : LogRec := { id := db.nextLogId, user := some u.id, contentType := "core.user", objectId := u.id, timestamp := w.clock, actionType := "user.token.reset", data := none } with hentry
  set db1 : DB := { db with logs := db.logs ++ [entry], nextLogId := db.nextLogId + 1 } with hdb1
  have hlog : log_action u "user.token.reset" none none db w = (db1, w) := rfl
  have hsave : dbSave db1 { u with appToken := some tk } =
      .ok { db1 with users := db1.users.map (fun v =>
        if v.id = u.id then
          { u with appToken := some tk, email := normalizeEmail u.email }
        else v) } := by
    rw [dbSave]
    simp only []
    rw [if_neg (by simp; exact hemail), if_pos (by simp; exact ⟨u, hu, rfl⟩)]
  refine ⟨tk, { db1 with users := db1.users.map (fun v => if v.id = u.id then { u with appToken := some tk, email := normalizeEmail u.email } else v) }, wr, ?_, hlen32, ?_, ?_, ?_⟩
  · rw [regenerate_token, hlog]
    simp only []
    rw [hgr]
    simp only []
    rw [hsave]
  · exact ⟨entry, rfl, rfl, rfl, rfl⟩
  · intro v hv hvid
    rcases List.mem_map.mp hv with ⟨a, _, rfl⟩
    by_cases ha : a.id = u.id
    · rw [if_pos ha]
    · rw [if_neg ha] at hvid ⊢
      exact absurd hvid ha
  · intro t
    constructor
    · rintro ⟨v, hv, hvid, hvtok⟩
      rcases List.mem_map.mp hv with ⟨a, _, rfl⟩
      by_cases ha : a.id = u.id
      · rw [if_pos ha] at hvtok
        simpa using hvtok.symm
      · rw [if_neg ha] at hvid
        exact absurd hvid ha
    · intro ht
      rw [ht]
      refine ⟨{ u with appToken := some tk, email := normalizeEmail u.email },
        ?_, rfl, rfl⟩
      exact List.mem_map.mpr ⟨u, hu, by simp⟩

/-- Witness for C5: on a one-user database, the regenerated token is the
32 stream characters, and the previous token `"old"` no longer
authenticates afterwards. -/
theorem regenerate_token_rotates_witness :
    (regenerate_token
        { id := 1, name := "alice", email := [97, 64, 98], appToken := some "old" }
        { users := [{ id := 1, name := "alice", email := [97, 64, 98],
                      appToken := some "old" }] }
        { stream := fun _ => 'x', pos := 0, clock := 0 }).1 =
      .ok (String.mk (List.replicate 32 'x')) ∧
    ¬ authenticatesAs
        (regenerate_token
          { id := 1, name := "alice", email := [97, 64, 98], appToken := some "old" }
          { users := [{ id := 1, name := "alice", email := [97, 64, 98],
                        appToken := some "old" }] }
          { stream := fun _ => 'x', pos := 0, clock := 0 }).2.1
        1 "old" := by
  constructor
  · rfl
  · obtain ⟨tok, db2, w2, heq, hlen, _, _, hauth⟩ :=
      regenerate_token_rotates
        { id := 1, name := "alice", email := [97, 64, 98], appToken := some "old" }
        { users := [{ id := 1, name := "alice", email := [97, 64, 98],
                      appToken := some "old" }] }
        { stream := fun _ => 'x', pos := 0, clock := 0 }
        (by decide) (by decide)
    rw [heq]
    intro hcontra
    have h1 := (hauth "old").mp hcontra
    rw [← h1] at hlen
    exact absurd hlen (by decide)

lemma dbSave_ok_stored {db : DB} {u : UserRec} {db1 : DB}
    (h : dbSave db u = .ok db1) :
    ∃ v ∈ db1.users, v.id = u.id ∧ v.email = normalizeEmail u.email := by
  rw [dbSave] at h
  simp only [] at h
  split at h
  · simp at h
  · split at h
    · rename_i hex
      rw [Except.ok.injEq] at h
      subst h
      rw [List.any_eq_true] at hex
      obtain ⟨a, ha, had⟩ := hex
      rw [decide_eq_true_eq] at had
      refine ⟨{ u with email := normalizeEmail u.email }, ?_, rfl, rfl⟩
      exact List.mem_map.mpr ⟨a, ha, by rw [if_pos had]⟩
    · rw [Except.ok.injEq] at h
      subst h
      exact ⟨{ u with email := normalizeEmail u.email }, by simp, rfl, rfl⟩

/-- C4: on every persist the stored email is the supplied email
lower-cased and stripped; the normalisation is idempotent; and a second
user whose email differs from a stored user's only in letter case or in
surrounding whitespace is rejected as a duplicate. -/
theorem email_normalized_on_save :
    (∀ e, normalizeEmail (normalizeEmail e) = normalizeEmail e) ∧
    (∀ (db : DB) (u : UserRec) (db1 : DB), dbSave db u = .ok db1 →
      ∃ v ∈ db1.users, v.id = u.id ∧ v.email = normalizeEmail u.email) ∧
    (∀ (db : DB) (u1 u2 : UserRec) (db1 : DB), dbSave db u1 = .ok db1 →
      u2.id ≠ u1.id → emailVariant u1.email u2.email →
      dbSave db1 u2 = .error .integrityError) := by
  refine ⟨normalizeEmail_idem, fun db u db1 h => dbSave_ok_stored h, ?_⟩
  intro db u1 u2 db1 hsave hne hvar
  obtain ⟨v, hv, hvid, hvem⟩ := dbSave_ok_stored hsave
  rw [dbSave]
  simp only []
  rw [if_pos]
  rw [List.any_eq_true]
  refine ⟨v, hv, ?_⟩
  rw [decide_eq_true_eq]
  constructor
  · exact fun hc => hne (hc.symm.trans hvid)
  · rw [hvem]
    exact emailVariant_norm_eq hvar

/-- Witness for C4: `" A@B.com "` normalises to `"a@b.com"` (bytes), the
normalisation is idempotent on it, and after storing it, storing a
second user with email `"a@b.com"` is rejected as a duplicate. -/
theorem email_normalized_on_save_witness :
    normalizeEmail (normalizeEmail [32, 65, 64, 66, 46, 99, 111, 109, 32]) =
      normalizeEmail [32, 65, 64, 66, 46, 99, 111, 109, 32] ∧
    (∃ v ∈ ({ users := [{ id := 1, name := "a", email := [97, 64, 98, 46, 99, 111, 109] }] } : DB).users,
      v.id = 1 ∧ v.email =
        normalizeEmail [32, 65, 64, 66, 46, 99, 111, 109, 32]) ∧
    dbSave { users := [{ id := 1, name := "a", email := [97, 64, 98, 46, 99, 111, 109] }] }
      { id := 2, name := "b", email := [97, 64, 98, 46, 99, 111, 109] } =
      .error .integrityError := by
  refine ⟨email_normalized_on_save.1 _, ?_, ?_⟩
  · exact email_normalized_on_save.2.1 {}
      { id := 1, name := "a", email := [32, 65, 64, 66, 46, 99, 111, 109, 32] }
      _ rfl
  · exact email_normalized_on_save.2.2 {}
      { id := 1, name := "a", email := [32, 65, 64, 66, 46, 99, 111, 109, 32] }
      { id := 2, name := "b", email := [97, 64, 98, 46, 99, 111, 109] }
      _ rfl (by decide)
      ⟨[32], [65, 64, 66, 46, 99, 111, 109], [32], [], [97, 64, 98, 46, 99, 111, 109], [],
        by decide, by decide, by decide, by decide, rfl, by simp, by decide⟩

lemma pwInv_dbSave {db db1 : DB} {u : UserRec} (h : pwInv db)
    (hu : pwPairInv u) (hs : dbSave db u = .ok db1) : pwInv db1 := by
  unfold pwInv at h ⊢
  rw [dbSave] at hs
  simp only [] at hs
  split at hs
  · simp at hs
  · split at hs
    · rw [Except.ok.injEq] at hs
      subst hs
      intro v hv
      rcases List.mem_map.mp hv with ⟨a, ha, rfl⟩
      split
      · exact hu
      · exact h a ha
    · rw [Except.ok.injEq] at hs
      subst hs
      intro v hv
      rcases List.mem_append.mp hv with h1 | h1
      · exact h v h1
      · rw [List.mem_singleton] at h1
        subst h1
        exact hu

lemma create_user_ok_pw {n : String} {e : List Nat} {p : String} {db : DB}
    {w : World} {u : UserRec} {db1 : DB} {w1 : World}
    (h : create_user n e p db w = (.ok u, db1, w1)) :
    u.pwResetToken = none ∧ u.pwResetTime = none := by
  unfold create_user at h
  rcases hs : dbSave { db with nextUserId := db.nextUserId + 1 }
      { id := db.nextUserId, name := n, email := e,
        password := "hashed$" ++ p } with e1 | d1
  · simp only [] at h
    rw [hs] at h
    simp at h
  · simp only [] at h
    rw [hs] at h
    simp only [Prod.mk.injEq, Except.ok.injEq] at h
    rw [← h.1]
    exact ⟨rfl, rfl⟩

lemma pwInv_create_user {n : String} {e : List Nat} {p : String} {db : DB}
    {w : World} (h : pwInv db) : pwInv (create_user n e p db w).2.1 := by
  unfold create_user
  rcases hs : dbSave { db with nextUserId := db.nextUserId + 1 }
      { id := db.nextUserId, name := n, email := e,
        password := "hashed$" ++ p } with e1 | db1
  · simp only [hs]
    exact h
  · simp only [hs]
    refine pwInv_dbSave ?_ ?_ hs
    · exact fun v hv => h v hv
    · rfl

lemma pwInv_create_superuser {n : String} {e : List Nat} {p : String}
    {db : DB} {w : World} (h : pwInv db) :
    pwInv (create_superuser n e p db w).2.1 := by
  unfold create_superuser
  rcases hc : create_user n e p db w with ⟨r, db1, w1⟩
  have h1 : pwInv db1 := by
    have h2 : pwInv (create_user n e p db w).2.1 := pwInv_create_user h
    rw [hc] at h2
    exact h2
  rcases r with e1 | u
  · exact h1
  · have hpw := create_user_ok_pw hc
    rcases hs : dbSave db1 { u with isSuperuser := true, isStaff := true }
        with e2 | db2
    · simp only [hs]
      exact h1
    · simp only [hs]
      refine pwInv_dbSave h1 ?_ hs
      unfold pwPairInv
      simp [hpw.1, hpw.2]

lemma pwInv_deleteUserRow {db db1 : DB} {uid : Nat} (h : pwInv db)
    (hd : deleteUserRow db uid = .ok db1) : pwInv db1 := by
  rw [deleteUserRow] at hd
  split at hd
  · simp at hd
  · rw [Except.ok.injEq] at hd
    subst hd
    intro v hv
    exact h v (List.mem_filter.mp hv).1

lemma pwInv_regenerate {u : UserRec} {db : DB} {w : World} (h : pwInv db)
    (hu : pwPairInv u) : pwInv (regenerate_token u db w).2.1 := by
  unfold regenerate_token
  simp only []
  rcases hs : dbSave (log_action u "user.token.reset" none none db w).1 { u with appToken := some (get_random_string 32 (log_action u "user.token.reset" none none db w).2).1 } with e1 | db2
  · simp only [hs]
    exact fun v hv => h v hv
  · simp only [hs]
    refine pwInv_dbSave ?_ ?_ hs
    · exact fun v hv => h v hv
    · exact hu

lemma pwInv_step (s : DB × World) (op : Op) (h : pwInv s.1) :
    pwInv (step s op).1 := by
  cases op with
  | createUser n e p => exact pwInv_create_user h
  | createSuperuser n e p => exact pwInv_create_superuser h
  | saveProfile uid n e =>
    simp only [step]
    rcases hf : findUser s.1 uid with _ | u
    · exact h
    · simp only []
      have hu : u ∈ s.1.users := List.mem_of_find?_eq_some hf
      rcases hs : dbSave s.1 { u with name := n, email := e } with e1 | db1
      · simp only [hs]
        exact h
      · simp only [hs]
        refine pwInv_dbSave ?_ ?_ hs
        · exact h
        · exact h u hu
  | regenerateToken uid =>
    simp only [step]
    rcases hf : findUser s.1 uid with _ | u
    · exact h
    · have hu : u ∈ s.1.users := List.mem_of_find?_eq_some hf
      exact pwInv_regenerate h (h u hu)
  | resetPassword uid =>
    simp only [step]
    rcases hf : findUser s.1 uid with _ | u
    · exact h
    · simp only []
      have h1 := reset_password_db u s.1 s.2
      intro v hv
      rw [h1] at hv
      exact h v hv
  | publishPost a k cd tr pl c =>
    simp only [step, publish_post]
    split
    · exact h
    · exact h
  | reactOp uid pid k => exact h
  | logActionOp uid action data =>
    simp only [step]
    rcases hf : findUser s.1 uid with _ | u
    · exact h
    · exact h
  | deleteUser uid =>
    simp only [step]
    rcases hf : findUser s.1 uid with _ | u
    · exact h
    · simp only []
      unfold userDelete
      rw [delete_files_ok]
      simp only []
      rcases hd : deleteUserRow s.1 u.id with e1 | db1
      · simp only [hd]
        exact h
      · simp only [hd]
        exact pwInv_deleteUserRow h hd

/-- C3: the pair (pw_reset_token, pw_reset_time) is both null or both
set for every user, and this invariant is preserved by every sequence
of operations of this core; in particular every completed or aborted
`reset_password` preserves it. -/
theorem pw_reset_pair_invariant :
    (∀ (ops : List Op) (db : DB) (w : World),
        pwInv db → pwInv (runOps (db, w) ops).1) ∧
    (∀ (u : UserRec) (db : DB) (w : World),
        pwInv db → pwInv (reset_password u db w).2.1) := by
  constructor
  · intro ops
    induction ops with
    | nil => exact fun db w h => h
    | cons op t ih =>
      intro db w h
      have h1 := pwInv_step (db, w) op h
      have h2 := ih (step (db, w) op).1 (step (db, w) op).2 h1
      exact h2
  · intro u db w h
    rw [reset_password_db]
    exact h

/-- Witness for C3: the invariant holds after a concrete sequence of
create / reset / regenerate / delete operations from the empty store. -/
theorem pw_reset_pair_invariant_witness :
    pwInv (runOps ({}, { stream := fun _ => 'z', pos := 0, clock := 0 })
      [Op.createUser "alice" [97, 64, 98] "pw", Op.resetPassword 1,
       Op.regenerateToken 1, Op.deleteUser 1]).1 ∧
    pwInv (reset_password { id := 1, name := "alice", email := [97, 64, 98] }
      { users := [{ id := 1, name := "alice", email := [97, 64, 98] }] }
      { stream := fun _ => 'z', pos := 0, clock := 0 }).2.1 := by
  constructor
  · exact pw_reset_pair_invariant.1 _ {} _ (by decide)
  · exact pw_reset_pair_invariant.2 _ _ _ (by decide)

end Ankisocial
